import Mathlib

/-!
# Verification of the telemetry statistics service

A shallow embedding, in Lean 4, of the statistics engine and request
handlers of the telemetry-ingestion service (`src/main.py`), together with
theorems settling the claims of the specification about them.

Conventions of the embedding:
* Python floats are modelled as rationals (`ℚ`): every operation the code
  performs (`min`, `max`, `sum`, `statistics.median`) is exact field
  arithmetic on the readings.
* Python lists are Lean `List`s; `sorted(data)` is `List.insertionSort
  (· ≤ ·)` (any stable comparison sort yields the same list here, since the
  order is total).
* An exception raised on a statistics computation over zero readings —
  `ValueError` from `min([])` / `max([])`, `StatisticsError` from
  `statistics.median([])` — is the single error kind the spec names
  `EmptyInputError`; fallible code returns `Except`.
* The SQLAlchemy store is modelled as in-memory lists kept in insertion
  order (SQLite returns unordered queries in rowid = insertion order);
  Python `dict`s (which preserve insertion order) are association lists
  built with an overwrite-aware insert.
-/

/-- The sole error kind of the statistics core (spec §7): raised when a
statistics computation is attempted over zero readings. -/
inductive CoreError where
  | EmptyInputError
deriving DecidableEq, Repr

/-- Result record of `compute_stats` (`src/main.py` lines 104-105):
`{"min": ..., "max": ..., "count": ..., "sum": ..., "median": ...}`. -/
structure StatsSummary where
  min : ℚ
  max : ℚ
  count : Nat
  sum : ℚ
  median : ℚ
deriving DecidableEq, Repr

/-- The Python builtin `sorted(values)` for numeric values. -/
def sortVals (values : List ℚ) : List ℚ :=
  List.insertionSort (· ≤ ·) values

/-- The CPython routine `statistics.median(values)` on a non-empty list: sort, then
take the middle element (odd length) or the mean of the two middle
elements (even length).  On `[]` the caller (`compute_stats`) has already
failed, so the default value of `getD` is never reached. -/
def medianOf (values : List ℚ) : ℚ :=
  let s := sortVals values
  let n := values.length
  if n % 2 = 1 then s.getD (n / 2) 0
  else (s.getD (n / 2 - 1) 0 + s.getD (n / 2) 0) / 2

/-- Embedding of `compute_stats` (`src/main.py` lines 104-105, repeated at
119-120): `{"min": min(values), "max": max(values), "count": len(values),
"sum": sum(values), "median": statistics.median(values)}`.  The Python
builtins `min`/`max` fold over the list from the head; on an empty list the
computation raises, modelled as `CoreError.EmptyInputError`. -/
def compute_stats (values : List ℚ) : Except CoreError StatsSummary :=
  match values with
  | [] => .error CoreError.EmptyInputError
  | x :: xs =>
      .ok { min := xs.foldl min x
            max := xs.foldl max x
            count := (x :: xs).length
            sum := (x :: xs).sum
            median := medianOf (x :: xs) }

/-- The wording the spec uses for the median: the middle value of the sorted
sequence (odd length), or the arithmetic mean of the two middle values of
the sorted sequence (even length).  Stated on an already-sorted list so
that the claims can quantify over every sorted arrangement. -/
def middleOfSorted (w : List ℚ) : ℚ :=
  if w.length % 2 = 1 then w.getD (w.length / 2) 0
  else (w.getD (w.length / 2 - 1) 0 + w.getD (w.length / 2) 0) / 2

/-- A stored `DeviceData` row (`src/main.py` lines 27-35): the
string id of the owning device, a timestamp (modelled as an integer time point; only
its total order matters to the code), and the three axis values. -/
structure Reading where
  device_id : String
  timestamp : Int
  x : ℚ
  y : ℚ
  z : ℚ
deriving DecidableEq, Repr

/-- The per-axis result dictionary `{"x": ..., "y": ..., "z": ...}` built
at `src/main.py` line 106 and lines 121-125. -/
structure AxesSummary where
  x : StatsSummary
  y : StatsSummary
  z : StatsSummary
deriving DecidableEq, Repr

/-- `{"x": compute_stats([d.x ...]), "y": compute_stats([d.y ...]),
"z": compute_stats([d.z ...])}` (`src/main.py` line 106): Python builds
the dict left to right, so the computation stops at the first axis whose
`compute_stats` raises. -/
def summarizeAxes (readings : List Reading) : Except CoreError AxesSummary :=
  match compute_stats (readings.map Reading.x) with
  | .error e => .error e
  | .ok sx =>
    match compute_stats (readings.map Reading.y) with
    | .error e => .error e
    | .ok sy =>
      match compute_stats (readings.map Reading.z) with
      | .error e => .error e
      | .ok sz => .ok ⟨sx, sy, sz⟩

/-- The relational store (`src/main.py` lines 13-35), modelled as lists in
insertion order: usernames (kept unique by the store), devices as
`(device_id, owner username)` pairs (`device_id` unique, `owner_id`
resolved to the unique username of the owner), and the stored readings. -/
structure Store where
  users : List String
  devices : List (String × String)
  readings : List Reading
deriving DecidableEq, Repr

/-- Outcome of a request handler: a 404 `HTTPException` with its detail
string, or an exception of the statistics core propagating uncaught out of
the handler (the handlers install no try/except). -/
inductive HandlerError where
  | notFound (detail : String)
  | uncaught (e : CoreError)
deriving DecidableEq, Repr

/-- The query of `src/main.py` lines 96-101: filter the stored rows by
`device_id`, then, when a `start` bound was supplied, keep rows with
`timestamp >= start`, and when an `end` bound was supplied, keep rows with
`timestamp <= end`. -/
def queryDeviceData (db : Store) (device_id : String)
    (start stop : Option Int) : List Reading :=
  let q := db.readings.filter (fun r => r.device_id == device_id)
  let q := match start with
           | some a => q.filter (fun r => a ≤ r.timestamp)
           | none => q
  match stop with
  | some b => q.filter (fun r => r.timestamp ≤ b)
  | none => q

/-- Handler `GET /stats/{device_id}` (`src/main.py` lines 94-106): run the
time-filtered query, answer 404 "No data found" when it is empty, and
otherwise return the three per-axis summaries. -/
def get_stats (device_id : String) (start stop : Option Int) (db : Store) :
    Except HandlerError AxesSummary :=
  if (queryDeviceData db device_id start stop).isEmpty then
    .error (.notFound "No data found")
  else
    match summarizeAxes (queryDeviceData db device_id start stop) with
    | .ok s => .ok s
    | .error e => .error (.uncaught e)

/-- The device rows owned by a user, in store (insertion) order
(`src/main.py` line 113), projected to their `device_id`s. -/
def userDevices (db : Store) (username : String) : List String :=
  (db.devices.filter (fun d => d.2 == username)).map Prod.fst

/-- `db.query(DeviceData).filter(DeviceData.device_id.in_(deviceIds))`
(`src/main.py` line 116): the pooled readings of a device set, in store
order. -/
def pooledReadings (db : Store) (deviceIds : List String) : List Reading :=
  db.readings.filter (fun r => deviceIds.contains r.device_id)

/-- Insertion into a Python `dict` modelled as an association list kept in
insertion order: an existing key is overwritten in place, a new key is
appended. -/
def dictInsert (m : List (String × AxesSummary)) (k : String)
    (v : AxesSummary) : List (String × AxesSummary) :=
  if m.any (fun p => p.1 == k) then
    m.map (fun p => if p.1 == k then (k, v) else p)
  else m ++ [(k, v)]

/-- The `for device in devices:` loop of `src/main.py` lines 127-133:
filter the pooled readings down to one device, summarize them per axis,
and store the result under the device id; the first group whose
`compute_stats` raises aborts the loop with that error. -/
def perGroupLoop (all_data : List Reading) :
    List String → List (String × AxesSummary) →
    Except CoreError (List (String × AxesSummary))
  | [], acc => .ok acc
  | d :: ds, acc =>
    match summarizeAxes (all_data.filter (fun r => r.device_id == d)) with
    | .ok s => perGroupLoop all_data ds (dictInsert acc d s)
    | .error e => .error e

/-- The engine part of `src/main.py` lines 121-133 (the operation the
spec calls `summarizeGrouped`): the pooled per-axis summary, then one per-axis
summary per known group, keyed and ordered by the known-group list. -/
def summarizeGrouped (readings : List Reading) (knownGroups : List String) :
    Except CoreError (AxesSummary × List (String × AxesSummary)) :=
  match summarizeAxes readings with
  | .error e => .error e
  | .ok aggregated =>
    match perGroupLoop readings knownGroups [] with
    | .error e => .error e
    | .ok perGroup => .ok (aggregated, perGroup)

/-- Response of `GET /user_stats/{username}` (`src/main.py` line 134). -/
structure UserStatsResponse where
  aggregated : AxesSummary
  per_device : List (String × AxesSummary)
deriving DecidableEq, Repr

/-- Handler `GET /user_stats/{username}` (`src/main.py` lines 108-134):
404 when the user is unknown, owns no devices, or has no stored readings
over all owned devices; otherwise the aggregated and per-device summaries.
An error raised by the statistics core inside the loop is not caught. -/
def get_user_stats (username : String) (db : Store) :
    Except HandlerError UserStatsResponse :=
  if !db.users.contains username then .error (.notFound "User not found")
  else if (userDevices db username).isEmpty then
    .error (.notFound "No devices found for this user")
  else if (pooledReadings db (userDevices db username)).isEmpty then
    .error (.notFound "No data found for user\x27s devices")
  else
    match summarizeGrouped (pooledReadings db (userDevices db username))
        (userDevices db username) with
    | .ok (agg, per) => .ok ⟨agg, per⟩
    | .error e => .error (.uncaught e)

/-- A handler outcome that the HTTP layer renders as "not found". -/
def isNotFoundOutcome {α : Type} : Except HandlerError α → Bool
  | .error (.notFound _) => true
  | _ => false

/-! ### Concrete inputs used by witnesses and counterexamples -/

/-- Reading `r1` of the grouped example in the spec: device "A". -/
def exR1 : Reading := ⟨"A", 0, 1, 1, 1⟩

/-- Reading `r2` of the grouped example in the spec: device "A". -/
def exR2 : Reading := ⟨"A", 1, 2, 2, 2⟩

/-- Reading `r3` of the grouped example in the spec: device "B". -/
def exR3 : Reading := ⟨"B", 2, 3, 3, 3⟩

/-- Per-axis summary of the values `[1, 2]`. -/
def exSumA : StatsSummary := ⟨1, 2, 2, 3, 3/2⟩

/-- Per-axis summary of the value `[3]`. -/
def exSumB : StatsSummary := ⟨3, 3, 1, 3, 3⟩

/-- Per-axis summary of the pooled values `[1, 2, 3]`. -/
def exSumAll : StatsSummary := ⟨1, 3, 3, 6, 2⟩

/-- Summary of the single value `[1]`. -/
def exSum1 : StatsSummary := ⟨1, 1, 1, 1, 1⟩

/-- Summary of the single value `[2]`. -/
def exSum2 : StatsSummary := ⟨2, 2, 1, 2, 2⟩

/-- The axes summary of readings whose x, y and z columns are equal. -/
def axesOf (s : StatsSummary) : AxesSummary := ⟨s, s, s⟩

/-- A store where user "u" owns devices "d1" and "d2" but only "d1" has a
reading: the per-device loop hits an empty group. -/
def emptyGroupStore : Store :=
  { users := ["u"]
    devices := [("d1", "u"), ("d2", "u")]
    readings := [⟨"d1", 0, 1, 1, 1⟩] }

/-- A store where user "u" owns devices "d1" and "d2", each with one
reading. -/
def twoDeviceStore : Store :=
  { users := ["u"]
    devices := [("d1", "u"), ("d2", "u")]
    readings := [⟨"d1", 0, 1, 1, 1⟩, ⟨"d2", 3, 2, 2, 2⟩] }

/-- A store with one device "A" holding the single reading `exR1`, used to
exercise the time-range filter. -/
def filterStore : Store :=
  { users := ["u"]
    devices := [("A", "u")]
    readings := [exR1] }

/-! ### Helper lemmas about folded minima/maxima and the sorted list -/

lemma foldl_min_mem (xs : List ℚ) : ∀ x : ℚ, xs.foldl min x ∈ x :: xs := by
  induction xs with
  | nil => intro x; simp
  | cons y ys ih =>
    intro x
    rw [List.foldl_cons]
    rcases List.mem_cons.mp (ih (min x y)) with h1 | h1
    · rw [h1]
      rcases min_choice x y with hm | hm <;> rw [hm] <;> simp
    · simp [List.mem_cons, h1]

lemma foldl_min_le (xs : List ℚ) : ∀ x a : ℚ, a ∈ x :: xs → xs.foldl min x ≤ a := by
  induction xs with
  | nil =>
    intro x a ha
    simp only [List.mem_singleton] at ha
    simp [ha]
  | cons y ys ih =>
    intro x a ha
    rw [List.foldl_cons]
    have hx : ys.foldl min (min x y) ≤ min x y :=
      ih (min x y) (min x y) (List.mem_cons_self _ _)
    rcases List.mem_cons.mp ha with rfl | ha1
    · exact hx.trans (min_le_left _ _)
    · rcases List.mem_cons.mp ha1 with rfl | ha2
      · exact hx.trans (min_le_right _ _)
      · exact ih (min x y) a (List.mem_cons_of_mem _ ha2)

lemma foldl_max_mem (xs : List ℚ) : ∀ x : ℚ, xs.foldl max x ∈ x :: xs := by
  induction xs with
  | nil => intro x; simp
  | cons y ys ih =>
    intro x
    rw [List.foldl_cons]
    rcases List.mem_cons.mp (ih (max x y)) with h1 | h1
    · rw [h1]
      rcases max_choice x y with hm | hm <;> rw [hm] <;> simp
    · simp [List.mem_cons, h1]

lemma le_foldl_max (xs : List ℚ) : ∀ x a : ℚ, a ∈ x :: xs → a ≤ xs.foldl max x := by
  induction xs with
  | nil =>
    intro x a ha
    simp only [List.mem_singleton] at ha
    simp [ha]
  | cons y ys ih =>
    intro x a ha
    rw [List.foldl_cons]
    have hx : max x y ≤ ys.foldl max (max x y) :=
      ih (max x y) (max x y) (List.mem_cons_self _ _)
    rcases List.mem_cons.mp ha with rfl | ha1
    · exact (le_max_left _ _).trans hx
    · rcases List.mem_cons.mp ha1 with rfl | ha2
      · exact (le_max_right _ _).trans hx
      · exact ih (max x y) a (List.mem_cons_of_mem _ ha2)

lemma sortVals_sorted (v : List ℚ) : (sortVals v).Sorted (· ≤ ·) :=
  List.sorted_insertionSort _ v

lemma sortVals_perm (v : List ℚ) : (sortVals v).Perm v :=
  List.perm_insertionSort _ v

/-- Any sorted arrangement of `v` is exactly `sortVals v`. -/
lemma sortVals_eq_of_sorted {v w : List ℚ} (h : v.Perm w) (hw : w.Sorted (· ≤ ·)) :
    sortVals v = w :=
  List.eq_of_perm_of_sorted ((sortVals_perm v).trans h) (sortVals_sorted v) hw

lemma medianOf_eq_middle (v : List ℚ) : medianOf v = middleOfSorted (sortVals v) := by
  unfold medianOf middleOfSorted
  rw [(sortVals_perm v).length_eq]

lemma medianOf_congr {v w : List ℚ} (h : v.Perm w) (hw : w.Sorted (· ≤ ·)) :
    medianOf v = middleOfSorted w := by
  rw [medianOf_eq_middle, sortVals_eq_of_sorted h hw]

lemma getD_mem_of_lt {l : List ℚ} {i : Nat} (h : i < l.length) : l.getD i 0 ∈ l := by
  rw [List.getD_eq_getElem l 0 h]
  exact List.getElem_mem h

lemma medianOf_ge {v : List ℚ} (hne : v ≠ []) {m : ℚ} (hm : ∀ a ∈ v, m ≤ a) :
    m ≤ medianOf v := by
  have hlen : 0 < v.length := List.length_pos.mpr hne
  have hslen : (sortVals v).length = v.length := (sortVals_perm v).length_eq
  have hmem : ∀ i, i < v.length → (sortVals v).getD i 0 ∈ v := fun i hi =>
    (sortVals_perm v).mem_iff.mp (getD_mem_of_lt (by rw [hslen]; exact hi))
  have h2 : v.length / 2 < v.length := Nat.div_lt_self hlen (by norm_num)
  have h1 : v.length / 2 - 1 < v.length := lt_of_le_of_lt (Nat.sub_le _ _) h2
  unfold medianOf
  by_cases hpar : v.length % 2 = 1
  · rw [if_pos hpar]
    exact hm _ (hmem _ h2)
  · rw [if_neg hpar]
    have ha := hm _ (hmem _ h1)
    have hb := hm _ (hmem _ h2)
    linarith

lemma medianOf_le {v : List ℚ} (hne : v ≠ []) {M : ℚ} (hM : ∀ a ∈ v, a ≤ M) :
    medianOf v ≤ M := by
  have hlen : 0 < v.length := List.length_pos.mpr hne
  have hslen : (sortVals v).length = v.length := (sortVals_perm v).length_eq
  have hmem : ∀ i, i < v.length → (sortVals v).getD i 0 ∈ v := fun i hi =>
    (sortVals_perm v).mem_iff.mp (getD_mem_of_lt (by rw [hslen]; exact hi))
  have h2 : v.length / 2 < v.length := Nat.div_lt_self hlen (by norm_num)
  have h1 : v.length / 2 - 1 < v.length := lt_of_le_of_lt (Nat.sub_le _ _) h2
  unfold medianOf
  by_cases hpar : v.length % 2 = 1
  · rw [if_pos hpar]
    exact hM _ (hmem _ h2)
  · rw [if_neg hpar]
    have ha := hM _ (hmem _ h1)
    have hb := hM _ (hmem _ h2)
    linarith

/-- `compute_stats` on a non-empty list, written out. -/
lemma compute_stats_cons (x : ℚ) (xs : List ℚ) :
    compute_stats (x :: xs) =
      .ok ⟨xs.foldl min x, xs.foldl max x, (x :: xs).length, (x :: xs).sum,
           medianOf (x :: xs)⟩ := rfl

/-- Inversion: a successful `compute_stats` run determines every field. -/
lemma compute_stats_ok_inv {v : List ℚ} {s : StatsSummary}
    (h : compute_stats v = .ok s) :
    v ≠ [] ∧ s.min ∈ v ∧ (∀ a ∈ v, s.min ≤ a) ∧ s.max ∈ v ∧ (∀ a ∈ v, a ≤ s.max) ∧
    s.count = v.length ∧ s.sum = v.sum ∧ s.median = medianOf v := by
  cases v with
  | nil => exact absurd h (by simp [compute_stats])
  | cons x xs =>
    rw [compute_stats_cons] at h
    have hs : s = ⟨xs.foldl min x, xs.foldl max x, (x :: xs).length, (x :: xs).sum,
        medianOf (x :: xs)⟩ := (Except.ok.injEq _ _).mp h.symm
    subst hs
    refine ⟨by simp, foldl_min_mem xs x, fun a ha => foldl_min_le xs x a ha,
      foldl_max_mem xs x, fun a ha => le_foldl_max xs x a ha, rfl, rfl, rfl⟩

/-- `compute_stats` succeeds exactly on non-empty input. -/
lemma compute_stats_ne_nil {v : List ℚ} (hne : v ≠ []) :
    ∃ s, compute_stats v = .ok s := by
  cases v with
  | nil => exact absurd rfl hne
  | cons x xs => exact ⟨_, compute_stats_cons x xs⟩

/-- `compute_stats` depends only on the multiset of values. -/
lemma compute_stats_perm {l₁ l₂ : List ℚ} (h : l₁.Perm l₂) :
    compute_stats l₁ = compute_stats l₂ := by
  cases l₁ with
  | nil =>
    have : l₂ = [] := h.symm.eq_nil
    rw [this]
  | cons x xs =>
    cases l₂ with
    | nil => exact absurd h.eq_nil (by simp)
    | cons y ys =>
      rw [compute_stats_cons, compute_stats_cons]
      have hmin : xs.foldl min x = ys.foldl min y :=
        le_antisymm
          (foldl_min_le xs x _ (h.mem_iff.mpr (foldl_min_mem ys y)))
          (foldl_min_le ys y _ (h.mem_iff.mp (foldl_min_mem xs x)))
      have hmax : xs.foldl max x = ys.foldl max y :=
        le_antisymm
          (le_foldl_max ys y _ (h.mem_iff.mp (foldl_max_mem xs x)))
          (le_foldl_max xs x _ (h.mem_iff.mpr (foldl_max_mem ys y)))
      have hmed : medianOf (x :: xs) = medianOf (y :: ys) := by
        rw [medianOf_eq_middle, medianOf_eq_middle,
          sortVals_eq_of_sorted (h.trans (sortVals_perm (y :: ys)).symm)
            (sortVals_sorted _)]
      rw [hmin, hmax, h.length_eq, h.sum_eq, hmed]

/-! ### Claims about the scalar statistics core -/

/-- Claim C1: for every non-empty sequence of values, `compute_stats`
succeeds and its result has the minimum, maximum, length, arithmetic sum
and statistical median of the values; in particular
`summarize([5]) = {min:5, max:5, count:1, sum:5, median:5}` and
`summarize([1,2,3,4]) = {min:1, max:4, count:4, sum:10, median:2.5}`. -/
theorem claim_C1_summarize_output :
    (∀ (v : List ℚ) (s : StatsSummary), compute_stats v = .ok s →
      s.min ∈ v ∧ (∀ a ∈ v, s.min ≤ a) ∧
      s.max ∈ v ∧ (∀ a ∈ v, a ≤ s.max) ∧
      s.count = v.length ∧ s.sum = v.sum ∧
      (∀ w : List ℚ, v.Perm w → w.Sorted (· ≤ ·) →
        s.median = middleOfSorted w)) ∧
    (∀ v : List ℚ, v ≠ [] → ∃ s, compute_stats v = .ok s) ∧
    compute_stats [5] = .ok ⟨5, 5, 1, 5, 5⟩ ∧
    compute_stats [1, 2, 3, 4] = .ok ⟨1, 4, 4, 10, 5/2⟩ := by
  refine ⟨?_, fun v hv => compute_stats_ne_nil hv, ?_, ?_⟩
  · intro v s h
    obtain ⟨hne, h1, h2, h3, h4, h5, h6, h7⟩ := compute_stats_ok_inv h
    exact ⟨h1, h2, h3, h4, h5, h6,
      fun w hp hs => by rw [h7, medianOf_congr hp hs]⟩
  · norm_num [compute_stats, medianOf, sortVals, List.insertionSort,
      List.orderedInsert]
  · norm_num [compute_stats, medianOf, sortVals, List.insertionSort,
      List.orderedInsert]

/-- Witness for C1: a successful run exists on the concrete input `[7]`. -/
theorem claim_C1_witness : ∃ s, compute_stats [7] = .ok s :=
  claim_C1_summarize_output.2.1 [7] (by decide)

/-- Claim C2: the median field is the conventional statistical median:
on any sorted arrangement of the input, the middle element when the
length is odd, and the mean of the two middle elements when the length is
even. -/
theorem claim_C2_median_semantics :
    ∀ (v : List ℚ) (s : StatsSummary), compute_stats v = .ok s →
    ∀ w : List ℚ, v.Perm w → w.Sorted (· ≤ ·) →
      (v.length % 2 = 1 → s.median = w.getD (v.length / 2) 0) ∧
      (v.length % 2 = 0 →
        s.median = (w.getD (v.length / 2 - 1) 0 + w.getD (v.length / 2) 0) / 2) := by
  intro v s h w hp hs
  obtain ⟨-, -, -, -, -, -, -, h7⟩ := compute_stats_ok_inv h
  have hm : s.median = middleOfSorted w := by rw [h7, medianOf_congr hp hs]
  have hlw : w.length = v.length := hp.length_eq.symm
  constructor
  · intro hodd
    rw [hm]
    unfold middleOfSorted
    rw [hlw, if_pos hodd]
  · intro heven
    rw [hm]
    unfold middleOfSorted
    rw [hlw, if_neg (by omega)]

/-- Witness for C2 at the even-length input `[1,2,3,4]`: the median is
the mean of the two middle elements of its sorted arrangement. -/
theorem claim_C2_witness :
    (⟨1, 4, 4, 10, 5/2⟩ : StatsSummary).median =
      (([1, 2, 3, 4] : List ℚ).getD (([1, 2, 3, 4] : List ℚ).length / 2 - 1) 0 +
       ([1, 2, 3, 4] : List ℚ).getD (([1, 2, 3, 4] : List ℚ).length / 2) 0) / 2 :=
  (claim_C2_median_semantics [1, 2, 3, 4] ⟨1, 4, 4, 10, 5/2⟩
    (by norm_num [compute_stats, medianOf, sortVals, List.insertionSort,
      List.orderedInsert])
    [1, 2, 3, 4] (by decide) (by decide)).2 (by decide)

/-- Claim C3: the empty input fails with `EmptyInputError`; this is the
sole error kind the core can produce (and it is produced only on empty
input); no summary is ever returned for zero readings. -/
theorem claim_C3_empty_input :
    compute_stats ([] : List ℚ) = .error CoreError.EmptyInputError ∧
    (∀ e : CoreError, e = CoreError.EmptyInputError) ∧
    (∀ (v : List ℚ) (e : CoreError), compute_stats v = .error e →
      v = [] ∧ e = CoreError.EmptyInputError) ∧
    (∀ s : StatsSummary, compute_stats ([] : List ℚ) ≠ .ok s) := by
  refine ⟨rfl, fun e => by cases e; rfl, ?_,
    fun s h => by simp [compute_stats] at h⟩
  intro v e h
  cases v with
  | nil => exact ⟨rfl, by cases e; rfl⟩
  | cons x xs =>
    rw [compute_stats_cons] at h
    exact absurd h (by simp)

/-- Witness for C3: the inversion applied to the concrete empty run. -/
theorem claim_C3_witness :
    ([] : List ℚ) = [] ∧ CoreError.EmptyInputError = CoreError.EmptyInputError :=
  claim_C3_empty_input.2.2.1 [] CoreError.EmptyInputError rfl

/-- Claim C7: `compute_stats` is order-independent — any permutation of
the same multiset yields identical output — and
`summarize([3,1,2]) = {min:1, max:3, count:3, sum:6, median:2}`. -/
theorem claim_C7_order_independence :
    (∀ l₁ l₂ : List ℚ, l₁.Perm l₂ → compute_stats l₁ = compute_stats l₂) ∧
    compute_stats [3, 1, 2] = .ok ⟨1, 3, 3, 6, 2⟩ := by
  refine ⟨fun l₁ l₂ h => compute_stats_perm h, ?_⟩
  norm_num [compute_stats, medianOf, sortVals, List.insertionSort,
    List.orderedInsert]

/-- Witness for C7 on a concrete permuted pair. -/
theorem claim_C7_witness :
    compute_stats [3, 1, 2] = compute_stats [2, 3, 1] :=
  claim_C7_order_independence.1 [3, 1, 2] [2, 3, 1] (by decide)

/-- Claim C8: every produced summary satisfies
`min ≤ median ≤ max` and `sum = count × mean` with `mean = sum / count`. -/
theorem claim_C8_sanity_bounds :
    ∀ (v : List ℚ) (s : StatsSummary), compute_stats v = .ok s →
      s.min ≤ s.median ∧ s.median ≤ s.max ∧
      s.sum = (s.count : ℚ) * (s.sum / (s.count : ℚ)) := by
  intro v s h
  obtain ⟨hne, h1, h2, h3, h4, h5, h6, h7⟩ := compute_stats_ok_inv h
  refine ⟨?_, ?_, ?_⟩
  · rw [h7]
    exact medianOf_ge hne h2
  · rw [h7]
    exact medianOf_le hne h4
  · have hc : (s.count : ℚ) ≠ 0 := by
      rw [h5]
      exact Nat.cast_ne_zero.mpr (List.length_pos.mpr hne).ne'
    field_simp

/-- Witness for C8 at the concrete input `[3,1,2]`. -/
theorem claim_C8_witness :
    (⟨1, 3, 3, 6, 2⟩ : StatsSummary).min ≤ (⟨1, 3, 3, 6, 2⟩ : StatsSummary).median ∧
    (⟨1, 3, 3, 6, 2⟩ : StatsSummary).median ≤ (⟨1, 3, 3, 6, 2⟩ : StatsSummary).max ∧
    (⟨1, 3, 3, 6, 2⟩ : StatsSummary).sum =
      ((⟨1, 3, 3, 6, 2⟩ : StatsSummary).count : ℚ) *
        ((⟨1, 3, 3, 6, 2⟩ : StatsSummary).sum /
          ((⟨1, 3, 3, 6, 2⟩ : StatsSummary).count : ℚ)) :=
  claim_C8_sanity_bounds [3, 1, 2] ⟨1, 3, 3, 6, 2⟩
    (by norm_num [compute_stats, medianOf, sortVals, List.insertionSort,
      List.orderedInsert])

/-! ### Helper lemmas about the axes and grouped summaries -/

lemma summarizeAxes_nil : summarizeAxes [] = .error CoreError.EmptyInputError := rfl

lemma summarizeAxes_ne_nil {readings : List Reading} (hne : readings ≠ []) :
    ∃ a, summarizeAxes readings = .ok a := by
  have hx : readings.map Reading.x ≠ [] := fun h => hne (List.map_eq_nil_iff.mp h)
  have hy : readings.map Reading.y ≠ [] := fun h => hne (List.map_eq_nil_iff.mp h)
  have hz : readings.map Reading.z ≠ [] := fun h => hne (List.map_eq_nil_iff.mp h)
  obtain ⟨sx, hsx⟩ := compute_stats_ne_nil hx
  obtain ⟨sy, hsy⟩ := compute_stats_ne_nil hy
  obtain ⟨sz, hsz⟩ := compute_stats_ne_nil hz
  refine ⟨⟨sx, sy, sz⟩, ?_⟩
  unfold summarizeAxes
  rw [hsx, hsy, hsz]

lemma perGroupLoop_cons_ok (all_data : List Reading) (d : String)
    (ds : List String) (acc : List (String × AxesSummary)) {s : AxesSummary}
    (hax : summarizeAxes (all_data.filter (fun r => r.device_id == d)) = .ok s) :
    perGroupLoop all_data (d :: ds) acc =
      perGroupLoop all_data ds (dictInsert acc d s) := by
  conv_lhs => rw [perGroupLoop]
  rw [hax]

lemma perGroupLoop_cons_err (all_data : List Reading) (d : String)
    (ds : List String) (acc : List (String × AxesSummary)) {e : CoreError}
    (hax : summarizeAxes (all_data.filter (fun r => r.device_id == d)) = .error e) :
    perGroupLoop all_data (d :: ds) acc = .error e := by
  conv_lhs => rw [perGroupLoop]
  rw [hax]

lemma dictInsert_fresh {m : List (String × AxesSummary)} {k : String}
    (v : AxesSummary) (h : ∀ p ∈ m, p.1 ≠ k) : dictInsert m k v = m ++ [(k, v)] := by
  unfold dictInsert
  rw [if_neg]
  simp only [List.any_eq_true, beq_iff_eq, not_exists, not_and]
  exact fun p hp => h p hp

lemma perGroupLoop_ok_append (all_data : List Reading) :
    ∀ (groups : List String) (acc per : List (String × AxesSummary)),
      groups.Nodup → (∀ g ∈ groups, ∀ p ∈ acc, p.1 ≠ g) →
      perGroupLoop all_data groups acc = .ok per →
      ∃ tail, per = acc ++ tail ∧ tail.map Prod.fst = groups ∧
        ∀ p ∈ tail,
          summarizeAxes (all_data.filter (fun r => r.device_id == p.1)) = .ok p.2 := by
  intro groups
  induction groups with
  | nil =>
    intro acc per _ _ h
    simp only [perGroupLoop] at h
    injection h with h1
    exact ⟨[], by simp [← h1], rfl, by simp⟩
  | cons d ds ih =>
    intro acc per hnd hdisj h
    obtain ⟨hdnotin, hndds⟩ := List.nodup_cons.mp hnd
    cases hax : summarizeAxes (all_data.filter (fun r => r.device_id == d)) with
    | error e =>
      rw [perGroupLoop_cons_err all_data d ds acc hax] at h
      exact absurd h (by simp)
    | ok s =>
      rw [perGroupLoop_cons_ok all_data d ds acc hax] at h
      have hfresh : ∀ p ∈ acc, p.1 ≠ d :=
        fun p hp => hdisj d (List.mem_cons_self _ _) p hp
      rw [dictInsert_fresh s hfresh] at h
      have hdisj' : ∀ g ∈ ds, ∀ p ∈ acc ++ [(d, s)], p.1 ≠ g := by
        intro g hg p hp
        rcases List.mem_append.mp hp with hp1 | hp1
        · exact hdisj g (List.mem_cons_of_mem _ hg) p hp1
        · have hpds : p = (d, s) := by simpa using hp1
          rw [hpds]
          intro hc
          have hc' : d = g := hc
          subst hc'
          exact hdnotin hg
      obtain ⟨tail, hper, hkeys, hsumm⟩ := ih (acc ++ [(d, s)]) per hndds hdisj' h
      refine ⟨(d, s) :: tail, by simp [hper], by simp [hkeys], ?_⟩
      intro p hp
      rcases List.mem_cons.mp hp with rfl | hp1
      · exact hax
      · exact hsumm p hp1

lemma perGroupLoop_error (all_data : List Reading) :
    ∀ (groups : List String) (acc : List (String × AxesSummary)) (g : String),
      g ∈ groups → all_data.filter (fun r => r.device_id == g) = [] →
      perGroupLoop all_data groups acc = .error CoreError.EmptyInputError := by
  intro groups
  induction groups with
  | nil =>
    intro acc g hg
    exact absurd hg (by simp)
  | cons d ds ih =>
    intro acc g hg hempty
    rcases List.mem_cons.mp hg with rfl | hg1
    · have hax : summarizeAxes (all_data.filter (fun r => r.device_id == g)) =
          .error CoreError.EmptyInputError := by
        rw [hempty]
        rfl
      exact perGroupLoop_cons_err all_data g ds acc hax
    · cases hax : summarizeAxes (all_data.filter (fun r => r.device_id == d)) with
      | ok s =>
        rw [perGroupLoop_cons_ok all_data d ds acc hax]
        exact ih _ g hg1 hempty
      | error e =>
        rw [perGroupLoop_cons_err all_data d ds acc hax]

lemma summarizeGrouped_eq_ok (readings : List Reading) (groups : List String)
    {agg : AxesSummary} {per : List (String × AxesSummary)}
    (hagg : summarizeAxes readings = .ok agg)
    (hloop : perGroupLoop readings groups [] = .ok per) :
    summarizeGrouped readings groups = .ok (agg, per) := by
  unfold summarizeGrouped
  rw [hagg, hloop]

lemma summarizeGrouped_ok_parts {readings : List Reading} {groups : List String}
    {agg : AxesSummary} {per : List (String × AxesSummary)}
    (h : summarizeGrouped readings groups = .ok (agg, per)) :
    summarizeAxes readings = .ok agg ∧ perGroupLoop readings groups [] = .ok per := by
  unfold summarizeGrouped at h
  cases hagg : summarizeAxes readings with
  | error e =>
    rw [hagg] at h
    exact absurd h (by simp)
  | ok a =>
    rw [hagg] at h
    cases hloop : perGroupLoop readings groups [] with
    | error e =>
      rw [hloop] at h
      exact absurd h (by simp)
    | ok per0 =>
      rw [hloop] at h
      injection h with h1
      obtain ⟨h2, h3⟩ := Prod.mk.injEq .. |>.mp h1
      exact ⟨by rw [h2], by rw [h3]⟩

lemma lookup_of_mem_of_nodupKeys :
    ∀ (l : List (String × AxesSummary)) (k : String) (s : AxesSummary),
      (l.map Prod.fst).Nodup → (k, s) ∈ l → l.lookup k = some s := by
  intro l
  induction l with
  | nil =>
    intro k s _ h
    exact absurd h (by simp)
  | cons p t ih =>
    obtain ⟨p1, p2⟩ := p
    intro k s hnd hmem
    rw [List.map_cons] at hnd
    obtain ⟨hp, ht⟩ := List.nodup_cons.mp hnd
    rcases List.mem_cons.mp hmem with heq | h1
    · obtain ⟨rfl, rfl⟩ := Prod.mk.injEq .. |>.mp heq
      simp [List.lookup]
    · have hk : (k == p1) = false := by
        refine beq_eq_false_iff_ne.mpr fun hc => ?_
        have hmap : k ∈ t.map Prod.fst := List.mem_map_of_mem Prod.fst h1
        rw [hc] at hmap
        exact hp hmap
      simp only [List.lookup, hk]
      exact ih k s ht h1

lemma get_user_stats_ok_inv {username : String} {db : Store}
    {resp : UserStatsResponse} (h : get_user_stats username db = .ok resp) :
    summarizeGrouped (pooledReadings db (userDevices db username))
      (userDevices db username) = .ok (resp.aggregated, resp.per_device) := by
  unfold get_user_stats at h
  split at h
  · exact absurd h (by simp)
  · split at h
    · exact absurd h (by simp)
    · split at h
      · exact absurd h (by simp)
      · split at h
        next agg per heq =>
          injection h with h1
          rw [← h1]
          exact heq
        next e heq => exact absurd h (by simp)

/-- When the three axis columns carry the same value list, the axes
summary is the scalar summary repeated. -/
lemma summarizeAxes_of_uniform (vs : List ℚ) {rs : List Reading}
    {s : StatsSummary} (hx : rs.map Reading.x = vs) (hy : rs.map Reading.y = vs)
    (hz : rs.map Reading.z = vs) (hs : compute_stats vs = .ok s) :
    summarizeAxes rs = .ok (axesOf s) := by
  unfold summarizeAxes
  rw [hx, hy, hz, hs]
  rfl

lemma perGroupLoop_two (all_data : List Reading) (d1 d2 : String)
    {s1 s2 : AxesSummary} (hne : d1 ≠ d2)
    (h1 : summarizeAxes (all_data.filter (fun r => r.device_id == d1)) = .ok s1)
    (h2 : summarizeAxes (all_data.filter (fun r => r.device_id == d2)) = .ok s2) :
    perGroupLoop all_data [d1, d2] [] = .ok [(d1, s1), (d2, s2)] := by
  rw [perGroupLoop_cons_ok all_data d1 [d2] [] h1]
  have e1 : dictInsert [] d1 s1 = [(d1, s1)] := by simp [dictInsert]
  rw [e1, perGroupLoop_cons_ok all_data d2 [] [(d1, s1)] h2]
  have e2 : dictInsert [(d1, s1)] d2 s2 = [(d1, s1), (d2, s2)] := by
    simp [dictInsert, hne]
  rw [e2]
  rfl

/-- The shared kernel of claims C5 and C6: a known group with no matching
readings turns the whole grouped computation into `EmptyInputError`. -/
lemma summarizeGrouped_error_of_empty_group {readings : List Reading}
    {groups : List String} {g : String} (hne : readings ≠ []) (hg : g ∈ groups)
    (hempty : readings.filter (fun r => r.device_id == g) = []) :
    summarizeGrouped readings groups = .error CoreError.EmptyInputError := by
  obtain ⟨a, ha⟩ := summarizeAxes_ne_nil hne
  unfold summarizeGrouped
  rw [ha, perGroupLoop_error readings groups [] g hg hempty]

lemma get_user_stats_eval {username : String} {db : Store} {agg : AxesSummary}
    {per : List (String × AxesSummary)}
    (h1 : db.users.contains username = true)
    (h2 : (userDevices db username).isEmpty = false)
    (h3 : (pooledReadings db (userDevices db username)).isEmpty = false)
    (h4 : summarizeGrouped (pooledReadings db (userDevices db username))
        (userDevices db username) = .ok (agg, per)) :
    get_user_stats username db = .ok ⟨agg, per⟩ := by
  unfold get_user_stats
  rw [h1, h2, h3, h4]
  simp

lemma get_user_stats_eval_err {username : String} {db : Store} {e : CoreError}
    (h1 : db.users.contains username = true)
    (h2 : (userDevices db username).isEmpty = false)
    (h3 : (pooledReadings db (userDevices db username)).isEmpty = false)
    (h4 : summarizeGrouped (pooledReadings db (userDevices db username))
        (userDevices db username) = .error e) :
    get_user_stats username db = .error (.uncaught e) := by
  unfold get_user_stats
  rw [h1, h2, h3, h4]
  simp

/-! ### Claims about grouped summaries and handlers -/

/-- Claim C4: on a successful grouped run over a partition into known
groups, the aggregated summary is `summarizeAxes` of the pooled readings,
and every known group key maps to `summarizeAxes` of exactly the readings
whose key matches. -/
theorem claim_C4_grouped_decomposition :
    ∀ (readings : List Reading) (groups : List String), groups.Nodup →
    ∀ (agg : AxesSummary) (per : List (String × AxesSummary)),
      summarizeGrouped readings groups = .ok (agg, per) →
      summarizeAxes readings = .ok agg ∧
      ∀ k ∈ groups, ∃ s,
        summarizeAxes (readings.filter (fun r => r.device_id == k)) = .ok s ∧
        per.lookup k = some s := by
  intro readings groups hnd agg per h
  obtain ⟨hagg, hloop⟩ := summarizeGrouped_ok_parts h
  refine ⟨hagg, ?_⟩
  obtain ⟨tail, hper, hkeys, hsumm⟩ :=
    perGroupLoop_ok_append readings groups [] per hnd (by simp) hloop
  simp only [List.nil_append] at hper
  subst hper
  intro k hk
  rw [← hkeys] at hk
  obtain ⟨p, hp, hpk⟩ := List.mem_map.mp hk
  refine ⟨p.2, ?_, ?_⟩
  · have hps := hsumm p hp
    rw [hpk] at hps
    exact hps
  · have hkeysnd : (per.map Prod.fst).Nodup := by
      rw [hkeys]
      exact hnd
    refine lookup_of_mem_of_nodupKeys per k p.2 hkeysnd ?_
    rw [← hpk]
    exact hp

/-- Witness for C4: the two-group example of the spec, readings r1, r2 in group
"A" and r3 in group "B". -/
theorem claim_C4_witness :
    summarizeAxes [exR1, exR2, exR3] = .ok (axesOf exSumAll) ∧
    ∀ k ∈ ["A", "B"], ∃ s,
      summarizeAxes ([exR1, exR2, exR3].filter (fun r => r.device_id == k)) =
        .ok s ∧
      [("A", axesOf exSumA), ("B", axesOf exSumB)].lookup k = some s :=
  claim_C4_grouped_decomposition [exR1, exR2, exR3] ["A", "B"] (by decide)
    (axesOf exSumAll) [("A", axesOf exSumA), ("B", axesOf exSumB)]
    (by
      refine summarizeGrouped_eq_ok _ _ ?_ ?_
      · exact summarizeAxes_of_uniform [1, 2, 3] (by decide) (by decide)
          (by decide)
          (by norm_num [compute_stats, medianOf, sortVals, List.insertionSort,
            List.orderedInsert, exSumAll])
      · refine perGroupLoop_two _ "A" "B" (by decide) ?_ ?_
        · have hf : [exR1, exR2, exR3].filter (fun r => r.device_id == "A") =
              [exR1, exR2] := by decide
          rw [hf]
          exact summarizeAxes_of_uniform [1, 2] (by decide) (by decide)
            (by decide)
            (by norm_num [compute_stats, medianOf, sortVals,
              List.insertionSort, List.orderedInsert, exSumA])
        · have hf : [exR1, exR2, exR3].filter (fun r => r.device_id == "B") =
              [exR3] := by decide
          rw [hf]
          exact summarizeAxes_of_uniform [3] (by decide) (by decide)
            (by decide)
            (by norm_num [compute_stats, medianOf, sortVals,
              List.insertionSort, List.orderedInsert, exSumB]))

/-- Claim C5: if some known group has zero matching readings while the
pooled readings are non-empty, the whole grouped computation fails with
`EmptyInputError` (the empty group is neither skipped nor given a
zero-valued summary). -/
theorem claim_C5_empty_group_error :
    ∀ (readings : List Reading) (groups : List String) (g : String),
      readings ≠ [] → g ∈ groups →
      readings.filter (fun r => r.device_id == g) = [] →
      summarizeGrouped readings groups = .error CoreError.EmptyInputError := by
  intro readings groups g hne hg hempty
  exact summarizeGrouped_error_of_empty_group hne hg hempty

/-- Witness for C5: group "B" has no readings in `[exR1]`. -/
theorem claim_C5_witness :
    summarizeGrouped [exR1] ["B"] = .error CoreError.EmptyInputError :=
  claim_C5_empty_group_error [exR1] ["B"] "B" (by decide) (by decide)
    (by decide)

/-- Claim C9: the iteration (insertion) order of the per-group mapping is
the order of the caller-supplied known-group list; for per-user stats,
the order of the device list of the user. -/
theorem claim_C9_iteration_order :
    (∀ (readings : List Reading) (groups : List String)
       (agg : AxesSummary) (per : List (String × AxesSummary)),
       groups.Nodup → summarizeGrouped readings groups = .ok (agg, per) →
       per.map Prod.fst = groups) ∧
    (∀ (username : String) (db : Store) (resp : UserStatsResponse),
       (userDevices db username).Nodup →
       get_user_stats username db = .ok resp →
       resp.per_device.map Prod.fst = userDevices db username) := by
  have key : ∀ (readings : List Reading) (groups : List String)
      (agg : AxesSummary) (per : List (String × AxesSummary)),
      groups.Nodup → summarizeGrouped readings groups = .ok (agg, per) →
      per.map Prod.fst = groups := by
    intro readings groups agg per hnd h
    obtain ⟨-, hloop⟩ := summarizeGrouped_ok_parts h
    obtain ⟨tail, hper, hkeys, -⟩ :=
      perGroupLoop_ok_append readings groups [] per hnd (by simp) hloop
    simp only [List.nil_append] at hper
    rw [hper, hkeys]
  refine ⟨key, ?_⟩
  intro username db resp hnd h
  exact key _ _ _ _ hnd (get_user_stats_ok_inv h)

/-- Witness for C9: user "u" owns devices "d1" then "d2"; the per-device
mapping lists them in exactly that order. -/
theorem claim_C9_witness :
    (⟨axesOf exSumA, [("d1", axesOf exSum1), ("d2", axesOf exSum2)]⟩ :
      UserStatsResponse).per_device.map Prod.fst =
      userDevices twoDeviceStore "u" :=
  claim_C9_iteration_order.2 "u" twoDeviceStore
    ⟨axesOf exSumA, [("d1", axesOf exSum1), ("d2", axesOf exSum2)]⟩
    (by decide)
    (by
      refine get_user_stats_eval (by decide) (by decide) (by decide) ?_
      have hdev : userDevices twoDeviceStore "u" = ["d1", "d2"] := by decide
      have hpool : pooledReadings twoDeviceStore ["d1", "d2"] =
          [⟨"d1", 0, 1, 1, 1⟩, ⟨"d2", 3, 2, 2, 2⟩] := by decide
      rw [hdev, hpool]
      refine summarizeGrouped_eq_ok _ _ ?_ ?_
      · exact summarizeAxes_of_uniform [1, 2] (by decide) (by decide)
          (by decide)
          (by norm_num [compute_stats, medianOf, sortVals, List.insertionSort,
            List.orderedInsert, exSumA])
      · refine perGroupLoop_two _ "d1" "d2" (by decide) ?_ ?_
        · have hf : [(⟨"d1", 0, 1, 1, 1⟩ : Reading), ⟨"d2", 3, 2, 2, 2⟩].filter
              (fun r => r.device_id == "d1") = [⟨"d1", 0, 1, 1, 1⟩] := by decide
          rw [hf]
          exact summarizeAxes_of_uniform [1] (by decide) (by decide)
            (by decide)
            (by norm_num [compute_stats, medianOf, sortVals,
              List.insertionSort, List.orderedInsert, exSum1])
        · have hf : [(⟨"d1", 0, 1, 1, 1⟩ : Reading), ⟨"d2", 3, 2, 2, 2⟩].filter
              (fun r => r.device_id == "d2") = [⟨"d2", 3, 2, 2, 2⟩] := by decide
          rw [hf]
          exact summarizeAxes_of_uniform [2] (by decide) (by decide)
            (by decide)
            (by norm_num [compute_stats, medianOf, sortVals,
              List.insertionSort, List.orderedInsert, exSum2]))

/-- Counterexample to claim C6 as stated: in `emptyGroupStore`, user "u"
exists, owns devices "d1" and "d2", and has pooled readings, but device
"d2" has none; the engine raises `EmptyInputError` inside the per-device
loop and the handler response is the uncaught engine error — not a
"not found" outcome. -/
theorem claim_C6_counterexample :
    get_user_stats "u" emptyGroupStore =
      .error (HandlerError.uncaught CoreError.EmptyInputError) ∧
    isNotFoundOutcome (get_user_stats "u" emptyGroupStore) = false := by
  have hmain : get_user_stats "u" emptyGroupStore =
      .error (.uncaught CoreError.EmptyInputError) := by
    refine get_user_stats_eval_err (by decide) (by decide) (by decide) ?_
    have hdev : userDevices emptyGroupStore "u" = ["d1", "d2"] := by decide
    have hpool : pooledReadings emptyGroupStore ["d1", "d2"] =
        [⟨"d1", 0, 1, 1, 1⟩] := by decide
    rw [hdev, hpool]
    have hg : "d2" ∈ ["d1", "d2"] := by decide
    have hemp : [(⟨"d1", 0, 1, 1, 1⟩ : Reading)].filter
        (fun r => r.device_id == "d2") = [] := by decide
    exact summarizeGrouped_error_of_empty_group (by decide) hg hemp
  refine ⟨hmain, ?_⟩
  rw [hmain]
  rfl

/-- Claim C6 amended: the handlers return "not found" whenever a
referenced entity does not exist or their own empty-data guards detect no
readings; `get_stats` never lets an engine error escape (its guard runs
before the engine); but in `get_user_stats` an `EmptyInputError` raised
by the engine for a known device with zero matching readings escapes the
handler uncaught instead of becoming a "not found" outcome. -/
theorem claim_C6_handler_outcomes :
    (∀ (device_id : String) (start stop : Option Int) (db : Store)
       (e : CoreError),
       get_stats device_id start stop db ≠ .error (.uncaught e)) ∧
    (∀ (device_id : String) (start stop : Option Int) (db : Store),
       queryDeviceData db device_id start stop = [] →
       get_stats device_id start stop db =
         .error (.notFound "No data found")) ∧
    (∀ (username : String) (db : Store),
       db.users.contains username = false →
       get_user_stats username db = .error (.notFound "User not found")) ∧
    (∀ (username : String) (db : Store),
       db.users.contains username = true →
       userDevices db username = [] →
       get_user_stats username db =
         .error (.notFound "No devices found for this user")) ∧
    (∀ (username : String) (db : Store),
       db.users.contains username = true →
       userDevices db username ≠ [] →
       pooledReadings db (userDevices db username) = [] →
       get_user_stats username db =
         .error (.notFound "No data found for user\x27s devices")) ∧
    (∀ (username : String) (db : Store) (g : String),
       db.users.contains username = true →
       g ∈ userDevices db username →
       pooledReadings db (userDevices db username) ≠ [] →
       (pooledReadings db (userDevices db username)).filter
         (fun r => r.device_id == g) = [] →
       get_user_stats username db =
         .error (.uncaught CoreError.EmptyInputError)) := by
  refine ⟨?_, ?_, ?_, ?_, ?_, ?_⟩
  · intro did start stop db e
    unfold get_stats
    by_cases hq : (queryDeviceData db did start stop).isEmpty
    · rw [if_pos hq]
      simp
    · rw [if_neg hq]
      have hne : queryDeviceData db did start stop ≠ [] := by
        simpa [List.isEmpty_iff] using hq
      obtain ⟨a, ha⟩ := summarizeAxes_ne_nil hne
      rw [ha]
      simp
  · intro did start stop db h
    unfold get_stats
    rw [h]
    simp
  · intro username db h
    unfold get_user_stats
    rw [h]
    simp
  · intro username db h1 h2
    unfold get_user_stats
    rw [h1, h2]
    simp
  · intro username db h1 h2 h3
    unfold get_user_stats
    rw [h1, h3]
    have h2' : (userDevices db username).isEmpty = false := by
      cases hdev : userDevices db username with
      | nil => exact absurd hdev h2
      | cons a l => rfl
    rw [h2']
    simp
  · intro username db g h1 hg h3 hempty
    have h2' : (userDevices db username).isEmpty = false := by
      cases hdev : userDevices db username with
      | nil =>
        rw [hdev] at hg
        exact absurd hg (by simp)
      | cons a l => rfl
    have h3' : (pooledReadings db (userDevices db username)).isEmpty = false := by
      cases hp : pooledReadings db (userDevices db username) with
      | nil => exact absurd hp h3
      | cons a l => rfl
    exact get_user_stats_eval_err h1 h2' h3'
      (summarizeGrouped_error_of_empty_group h3 hg hempty)

/-- Witness for the amended C6: an unknown username gets "not found". -/
theorem claim_C6_witness :
    get_user_stats "v" emptyGroupStore = .error (.notFound "User not found") :=
  claim_C6_handler_outcomes.2.2.1 "v" emptyGroupStore (by decide)

/-- Claim C10: a stored reading enters the per-device statistics exactly
when its device matches and its timestamp lies within the requested
bounds, both endpoints included; an omitted bound imposes no constraint
on that side. -/
theorem claim_C10_time_filter :
    ∀ (db : Store) (device_id : String) (start stop : Option Int) (r : Reading),
      r ∈ queryDeviceData db device_id start stop ↔
        r ∈ db.readings ∧ r.device_id = device_id ∧
        (∀ a : Int, start = some a → a ≤ r.timestamp) ∧
        (∀ b : Int, stop = some b → r.timestamp ≤ b) := by
  intro db did start stop r
  unfold queryDeviceData
  cases start <;> cases stop <;>
    simp [List.mem_filter, and_assoc] <;>
    tauto

/-- Witness for C10: a reading whose timestamp equals the requested start
bound is included. -/
theorem claim_C10_witness :
    exR1 ∈ queryDeviceData filterStore "A" (some 0) (some 5) :=
  (claim_C10_time_filter filterStore "A" (some 0) (some 5) exR1).mpr
    ⟨by decide, by decide,
      fun a ha => by
        injection ha with h
        rw [← h]
        decide,
      fun b hb => by
        injection hb with h
        rw [← h]
        decide⟩
